import Mathlib

/-!
Shallow embedding of the TLS connection adapters of lighttpd2's
mod_openssl (src/modules/mod_openssl.c): the functions
openssl_con_read, openssl_con_write and openssl_con_close.

The OpenSSL library is modelled by a script: a list of results, one per
SSL_read / SSL_write invocation.  Chunk queues (liChunkQueue) are lists
of byte chunks (List Nat); the diagnostic sink (VR_ERROR) is modelled as
a list of abstract log entries.  Machine integers (off_t, goffset,
ssize_t) are modelled as Int, byte counts as Nat.
-/

/-- The fixed 16 KiB block size used by both adapters
(`const ssize_t blocksize = 16*1024`). -/
def blocksize : Nat := 16384

/-- The errno value EPIPE (broken pipe). -/
def EPIPE : Int := 32

/-- The errno value ECONNRESET (connection reset by peer). -/
def ECONNRESET : Int := 104

/-- OpenSSL reason code SSL_R_SSL_HANDSHAKE_FAILURE. -/
def SSL_R_SSL_HANDSHAKE_FAILURE : Nat := 229

/-- OpenSSL reason code SSL_R_TLSV1_ALERT_UNKNOWN_CA. -/
def SSL_R_TLSV1_ALERT_UNKNOWN_CA : Nat := 1048

/-- OpenSSL reason code SSL_R_SSLV3_ALERT_CERTIFICATE_UNKNOWN. -/
def SSL_R_SSLV3_ALERT_CERTIFICATE_UNKNOWN : Nat := 1046

/-- OpenSSL reason code SSL_R_SSLV3_ALERT_BAD_CERTIFICATE. -/
def SSL_R_SSLV3_ALERT_BAD_CERTIFICATE : Nat := 1042

/-- ERR_GET_REASON extracts the reason part of a packed OpenSSL error
code (the low 12 bits). -/
def ERR_GET_REASON (e : Nat) : Nat := e % 4096

/-- The liNetworkStatus values returned by the adapters. -/
inductive NetworkStatus
  | success
  | waitForEvent
  | connectionClose
  | fatalError
deriving DecidableEq

/-- One record handed to the diagnostic sink (a VR_ERROR call). -/
inductive LogEntry
  | sslReadError (code : Nat)
  | sslWriteError (code : Nat)
  | readErrno (e : Int)
  | writeErrno (e : Int)
  | writeUnexpectedEof
  | fdShouldBeDisabled
deriving DecidableEq

/-- The SSL_get_error classification of a failed SSL_read / SSL_write. -/
inductive SSLErrKind
  | wantRead
  | wantWrite
  | syscall
  | zeroReturn
  | other
deriving DecidableEq

/-- A failed library attempt: its SSL_get_error kind, the queued
ERR_get_error codes in drain order (all nonzero), the errno value at the
time of the call, and the raw return value of the call (ret ≤ 0). -/
structure SSLErr where
  kind : SSLErrKind
  queue : List Nat
  errno : Int
  ret : Int
deriving DecidableEq

/-- The backpressure limiter attached to the inbound queue
(cq->limit, with fields limit and current). -/
structure Limiter where
  limit : Int
  current : Int
deriving DecidableEq

/-- Total byte length of a list of chunks (also used for
`cq->length` of a chunk queue). -/
def cqLength (cq : List (List Nat)) : Nat := (cq.map List.length).sum

/-- The front-of-queue view derived by
`li_chunkiter_read(vr, ci, 0, blocksize, &block_data, &block_len)`:
up to blocksize bytes from the start of the first chunk. -/
def cqView (cq : List (List Nat)) : List Nat := (cq.headD []).take blocksize

/-- li_chunkqueue_skip: consume n bytes from the front of the queue,
removing fully consumed chunks. -/
def cqSkip : List (List Nat) → Nat → List (List Nat)
  | [], _ => []
  | c :: cs, n => if n < c.length then c.drop n :: cs else cqSkip cs (n - c.length)

/-- Result of one scripted SSL_write attempt: either the library
accepted some positive number of bytes (`accepted m` means the raw
return was min (m+1) block_len, always at least 1 for a nonempty view),
or it failed with r ≤ 0 and the given error information. -/
inductive SSLWriteRes
  | accepted (m : Nat)
  | failed (e : SSLErr)
deriving DecidableEq

/-- Result of one scripted SSL_read attempt: either the transport
produced the given plaintext bytes (SSL_read returns
min bytes.length capacity of them, 0 meaning end of stream), or the
call failed with r < 0 and the given error information. -/
inductive SSLReadRes
  | data (bytes : List Nat)
  | failed (e : SSLErr)
deriving DecidableEq

/-- Everything observable about one openssl_con_write call: the
returned status, the final queue, the final write_max, the records sent
to the sink, the views passed to SSL_write (in order), and the total
number of bytes consumed from the queue. -/
structure WriteOut where
  status : NetworkStatus
  cq : List (List Nat)
  writeMax : Int
  log : List LogEntry
  attempts : List (List Nat)
  consumed : Nat
deriving DecidableEq

/-- The error switch of openssl_con_write for a failed SSL_write
(`SSL_get_error` dispatch): returns the liNetworkStatus and the records
sent to the sink.  Mirrors the switch in openssl_con_write: on
SSL_ERROR_SYSCALL a nonempty error queue is drained and logged and the
result is FATAL_ERROR without consulting errno; with an empty queue and
ret == -1, errno EPIPE/ECONNRESET gives CONNECTION_CLOSE, any other
errno is logged and gives FATAL_ERROR; with an empty queue and ret ≠ -1
an unexpected-eof record is logged and the result is CONNECTION_CLOSE.
SSL_ERROR_ZERO_RETURN gives CONNECTION_CLOSE; the default case drains
and logs the whole queue and gives FATAL_ERROR. -/
def writeClassify (e : SSLErr) : NetworkStatus × List LogEntry :=
  match e.kind with
  | .wantRead => (.waitForEvent, [])
  | .wantWrite => (.waitForEvent, [])
  | .syscall =>
      if e.queue ≠ [] then (.fatalError, e.queue.map LogEntry.sslWriteError)
      else if e.ret = -1 then
        if e.errno = EPIPE ∨ e.errno = ECONNRESET then (.connectionClose, [])
        else (.fatalError, [LogEntry.writeErrno e.errno])
      else (.connectionClose, [LogEntry.writeUnexpectedEof])
  | .zeroReturn => (.connectionClose, [])
  | .other => (.fatalError, e.queue.map LogEntry.sslWriteError)

/-- Reason codes the read path treats as handshake noise
(SSL_R_SSL_HANDSHAKE_FAILURE and the three certificate alerts). -/
def noiseReason (rs : Nat) : Bool :=
  rs == SSL_R_SSL_HANDSHAKE_FAILURE || rs == SSL_R_TLSV1_ALERT_UNKNOWN_CA ||
  rs == SSL_R_SSLV3_ALERT_CERTIFICATE_UNKNOWN || rs == SSL_R_SSLV3_ALERT_BAD_CERTIFICATE

/-- The error switch of openssl_con_read for a failed SSL_read (r < 0,
`SSL_get_error` dispatch, after the WANT_READ/WANT_WRITE early return):
on SSL_ERROR_SYSCALL the whole error queue is drained and logged, then
errno EPIPE/ECONNRESET gives CONNECTION_CLOSE, otherwise errno is
logged and the result is FATAL_ERROR. SSL_ERROR_ZERO_RETURN gives
CONNECTION_CLOSE. In the default case the queue is drained; entries
whose ERR_GET_REASON is in the noise set are skipped unconditionally
(the `log_ssl_noise` verbosity check is only a TODO comment in the
source); any remaining entry is logged and sets was_fatal, giving
FATAL_ERROR; if no entry was outside the noise set the result is
CONNECTION_CLOSE. -/
def readClassify (e : SSLErr) : NetworkStatus × List LogEntry :=
  match e.kind with
  | .wantRead => (.waitForEvent, [])
  | .wantWrite => (.waitForEvent, [])
  | .syscall =>
      let drained := e.queue.map LogEntry.sslReadError
      if e.errno = EPIPE ∨ e.errno = ECONNRESET then (.connectionClose, drained)
      else (.fatalError, drained ++ [LogEntry.readErrno e.errno])
  | .zeroReturn => (.connectionClose, [])
  | .other =>
      let logged := (e.queue.filter (fun c => !noiseReason (ERR_GET_REASON c))).map
        LogEntry.sslReadError
      if e.queue.any (fun c => !noiseReason (ERR_GET_REASON c)) then (.fatalError, logged)
      else (.connectionClose, logged)

/-- The do-while loop of openssl_con_write.  Each loop iteration first
returns SUCCESS if the queue is empty, then derives the front view,
performs the next scripted SSL_write on it, and on a positive return r
skips r bytes from the queue, subtracts r from write_max, and repeats
while r equalled the view length and write_max is still positive.
Returns none when the script is too short for the call. -/
def conWriteLoop : List (List Nat) → Int → List SSLWriteRes → Option WriteOut
  | cq, wm, [] =>
      if cqLength cq = 0 then some ⟨.success, cq, wm, [], [], 0⟩ else none
  | cq, wm, res :: rest =>
      if cqLength cq = 0 then some ⟨.success, cq, wm, [], [], 0⟩
      else
        let v := cqView cq
        match res with
        | .accepted m =>
            let r := min (m + 1) v.length
            let cq2 := cqSkip cq r
            let wm2 := wm - (r : Int)
            if r = v.length ∧ 0 < wm2 then
              match conWriteLoop cq2 wm2 rest with
              | none => none
              | some o =>
                  some ⟨o.status, o.cq, o.writeMax, o.log, v :: o.attempts, r + o.consumed⟩
            else some ⟨.success, cq2, wm2, [], [v], r⟩
        | .failed e =>
            if e.kind = .wantRead ∨ e.kind = .wantWrite then
              some ⟨.waitForEvent, cq, wm, [], [v], 0⟩
            else
              some ⟨(writeClassify e).1, cq, wm, (writeClassify e).2, [v], 0⟩

/-- openssl_con_write: drain the outbound queue cq into the TLS layer
under budget write_max, with scripted library behaviour. -/
def openssl_con_write (cq : List (List Nat)) (write_max : Int)
    (script : List SSLWriteRes) : Option WriteOut :=
  conWriteLoop cq write_max script

/-- A GByteArray: its length field and its contents. -/
structure GByteArr where
  len : Nat
  data : List Nat
deriving DecidableEq

/-- g_byte_array_set_size: set the length to n, truncating the contents
or padding them (with zeros in this model; the C contents are
unspecified on growth and are never observed before being
overwritten). -/
def setSize (a : GByteArr) (n : Nat) : GByteArr :=
  ⟨n, a.data.take n ++ List.replicate (n - a.len) 0⟩

/-- A freshly allocated read buffer:
g_byte_array_new() resized to blocksize. -/
def freshBuf : GByteArr := setSize ⟨0, []⟩ blocksize

/-- Everything observable about one openssl_con_read call: the returned
status, the final inbound queue, the reuse_read_buffer left in the
connection context, the records sent to the sink, the chunks appended
to the inbound queue this call (in order), the plaintext byte runs the
library produced this call (in order), and the number of SSL_read
attempts performed. -/
structure ReadOut where
  status : NetworkStatus
  cq : List (List Nat)
  reuse : Option GByteArr
  log : List LogEntry
  appended : List (List Nat)
  delivered : List (List Nat)
  attempts : Nat
deriving DecidableEq

/-- Loop-local part of a ReadOut (everything except the final queue). -/
structure ReadLoopOut where
  status : NetworkStatus
  reuse : Option GByteArr
  log : List LogEntry
  appended : List (List Nat)
  delivered : List (List Nat)
  attempts : Nat
deriving DecidableEq

/-- The do-while loop of openssl_con_read.  buf is the current read
buffer (none means a fresh blocksize buffer is allocated), len the
running byte total, maxRead the quota computed at entry.  Each
iteration performs one scripted SSL_read into the buffer; a positive
return r shrinks the buffer to its first r bytes, appends it to the
queue and repeats while r equalled blocksize and len stays below
maxRead; r = 0 frees the buffer and returns CONNECTION_CLOSE;
WANT_READ/WANT_WRITE stashes the buffer into reuse_read_buffer and
returns WAIT_FOR_EVENT; other failures free the buffer and classify.
Returns none when the script is too short for the call. -/
def conReadLoop (maxRead : Int) :
    Option GByteArr → Int → List SSLReadRes → Option ReadLoopOut
  | _, _, [] => none
  | buf, len, res :: rest =>
      let b := buf.getD freshBuf
      match res with
      | .data bytes =>
          let r := min bytes.length b.len
          if r = 0 then some ⟨.connectionClose, none, [], [], [], 1⟩
          else
            let chunk := (setSize ⟨b.len, bytes.take r ++ b.data.drop r⟩ r).data
            let len2 := len + (r : Int)
            if r = blocksize ∧ len2 < maxRead then
              match conReadLoop maxRead none len2 rest with
              | none => none
              | some o =>
                  some ⟨o.status, o.reuse, o.log, chunk :: o.appended,
                    bytes.take r :: o.delivered, o.attempts + 1⟩
            else some ⟨.success, none, [], [chunk], [bytes.take r], 1⟩
      | .failed e =>
          if e.kind = .wantRead ∨ e.kind = .wantWrite then
            some ⟨.waitForEvent, some b, [], [], [], 1⟩
          else
            some ⟨(readClassify e).1, none, (readClassify e).2, [], [], 1⟩

/-- The max_read computation at the entry of openssl_con_read: start
from 16 * blocksize (256 KiB); with a limiter whose limit is positive,
cap at limit - current, flooring at 0, in which case the
fd-should-be-disabled diagnostic is emitted (the Bool component). -/
def computeMaxRead : Option Limiter → Int × Bool
  | none => ((16 : Int) * (blocksize : Int), false)
  | some l =>
      if 0 < l.limit then
        if (16 : Int) * (blocksize : Int) > l.limit - l.current then
          if l.limit - l.current ≤ 0 then (0, true)
          else (l.limit - l.current, false)
        else ((16 : Int) * (blocksize : Int), false)
      else ((16 : Int) * (blocksize : Int), false)

/-- openssl_con_read: read plaintext from the TLS layer into the
inbound queue cq under the limiter's quota, with scripted library
behaviour.  The reuse_read_buffer of the connection context is taken at
entry and its final value returned in the ReadOut. -/
def openssl_con_read (cq : List (List Nat)) (lim : Option Limiter)
    (reuse : Option GByteArr) (script : List SSLReadRes) : Option ReadOut :=
  let mr := computeMaxRead lim
  let preLog : List LogEntry := if mr.2 then [LogEntry.fdShouldBeDisabled] else []
  match conReadLoop mr.1 reuse 0 script with
  | none => none
  | some o =>
      some ⟨o.status, cq ++ o.appended, o.reuse, preLog ++ o.log,
        o.appended, o.delivered, o.attempts⟩

/-- The per-connection context of mod_openssl
(struct openssl_connection_ctx): the SSL handle and the
reuse_read_buffer. -/
structure openssl_connection_ctx where
  ssl : Option Nat
  reuse_read_buffer : Option GByteArr
deriving DecidableEq

/-- Operations performed on the TLS library by close (SSL_shutdown and
SSL_free on a handle). -/
inductive TLSOp
  | shutdown (h : Nat)
  | sslFree (h : Nat)
deriving DecidableEq

/-- openssl_con_close: if the context still holds an SSL handle,
perform a best-effort SSL_shutdown followed by SSL_free and null the
handle; otherwise do nothing.  Returns the new context and the library
operations performed. -/
def openssl_con_close (c : openssl_connection_ctx) :
    openssl_connection_ctx × List TLSOp :=
  match c.ssl with
  | some h => ({ c with ssl := none }, [TLSOp.shutdown h, TLSOp.sslFree h])
  | none => (c, [])

/-! ### Helper lemmas -/

/-- A real chunkqueue never holds empty chunks. -/
def noEmptyChunks (cq : List (List Nat)) : Prop := ∀ c ∈ cq, c ≠ []

instance : DecidablePred noEmptyChunks := fun cq =>
  inferInstanceAs (Decidable (∀ c ∈ cq, c ≠ []))

/-- The conclusion bundle of claim C6, for a write call entered with
queue cq and budget wm whose first scripted SSL_write accepts
r = min (m+1) (view length) bytes, with observed outcome o: the call
consumes exactly its accepted bytes from the front of the queue and
subtracts them from write_max; a second SSL_write attempt happens in
the same call exactly when r equalled the view length, the decremented
budget is still positive and the queue is still nonempty; otherwise the
call returns SUCCESS having consumed exactly r; and the concrete
20 KiB scenario: a single 20480-byte chunk written as an accepted
16384-byte block followed by a want-write pause yields
WAIT_FOR_EVENT with exactly 16384 bytes consumed, and the retry call
consumes the remaining 4096 bytes and returns SUCCESS. -/
def c6Conclusion (cq : List (List Nat)) (wm : Int) (m : Nat) (o : WriteOut) : Prop :=
  (o.writeMax = wm - (o.consumed : Int) ∧ o.cq = cqSkip cq o.consumed) ∧
  (2 ≤ o.attempts.length ↔
    (min (m + 1) (cqView cq).length = (cqView cq).length ∧
      0 < wm - ((min (m + 1) (cqView cq).length : Nat) : Int) ∧
      cqLength (cqSkip cq (min (m + 1) (cqView cq).length)) ≠ 0)) ∧
  (¬(min (m + 1) (cqView cq).length = (cqView cq).length ∧
      0 < wm - ((min (m + 1) (cqView cq).length : Nat) : Int)) →
    o.status = NetworkStatus.success ∧ o.consumed = min (m + 1) (cqView cq).length) ∧
  (cqLength (cqSkip cq (min (m + 1) (cqView cq).length)) = 0 →
    o.status = NetworkStatus.success) ∧
  openssl_con_write [List.replicate 20480 7] 1048576
      [SSLWriteRes.accepted 20000,
        SSLWriteRes.failed ⟨SSLErrKind.wantWrite, [], 0, -1⟩] =
    some ⟨NetworkStatus.waitForEvent, [List.replicate 4096 7],
      1048576 - ((16384 : Nat) : Int), [],
      [List.replicate 16384 7, List.replicate 4096 7], 16384⟩ ∧
  openssl_con_write [List.replicate 4096 7] (1048576 - ((16384 : Nat) : Int))
      [SSLWriteRes.accepted 20000] =
    some ⟨NetworkStatus.success, [],
      1048576 - ((16384 : Nat) : Int) - ((4096 : Nat) : Int), [],
      [List.replicate 4096 7], 4096⟩

/-- The observed outcome of the C6 witness call: queue [[1,2]],
budget 1, first attempt accepts 1 byte (short write), call stops. -/
def c6WitnessOut : WriteOut := ⟨NetworkStatus.success, [[2]], 0, [], [[1, 2]], 1⟩

theorem cqSkip_zero : ∀ (cq : List (List Nat)), noEmptyChunks cq → cqSkip cq 0 = cq
  | [], _ => rfl
  | c :: cs, h => by
      have hc : c ≠ [] := h c (by simp)
      have : 0 < c.length := List.length_pos.mpr hc
      simp [cqSkip, this]

theorem noEmptyChunks_cqSkip :
    ∀ (cq : List (List Nat)) (n : Nat), noEmptyChunks cq → noEmptyChunks (cqSkip cq n)
  | [], _, _ => by intro c hc; simp [cqSkip] at hc
  | c :: cs, n, h => by
      rw [cqSkip]
      split
      · rename_i hlt
        intro x hx
        rcases List.mem_cons.mp hx with rfl | hx
        · intro he
          have : (c.drop n).length = 0 := by rw [he]; rfl
          rw [List.length_drop] at this
          omega
        · exact h x (List.mem_cons_of_mem _ hx)
      · exact noEmptyChunks_cqSkip cs (n - c.length) fun x hx =>
          h x (List.mem_cons_of_mem _ hx)

theorem cqSkip_cqSkip : ∀ (cq : List (List Nat)) (a b : Nat),
    cqSkip (cqSkip cq a) b = cqSkip cq (a + b)
  | [], a, b => by simp [cqSkip]
  | c :: cs, a, b => by
      by_cases h : a < c.length
      · rw [cqSkip, if_pos h, cqSkip]
        by_cases h2 : b < (c.drop a).length
        · rw [if_pos h2, cqSkip,
            if_pos (by rw [List.length_drop] at h2; omega)]
          rw [List.drop_drop]
        · rw [if_neg h2, cqSkip,
            if_neg (by rw [List.length_drop] at h2; omega)]
          congr 1
          rw [List.length_drop] at h2 ⊢
          omega
      · rw [cqSkip, if_neg h, cqSkip_cqSkip cs (a - c.length) b, cqSkip,
          if_neg (by omega)]
        congr 1
        omega

theorem getLast?_cons_of_ne_nil {α : Type} (a : α) :
    ∀ (l : List α), l ≠ [] → (a :: l).getLast? = l.getLast?
  | [], h => absurd rfl h
  | _ :: _, _ => List.getLast?_cons_cons

theorem cqView_length_le (cq : List (List Nat)) : (cqView cq).length ≤ blocksize := by
  rw [cqView, List.length_take]
  omega

theorem writeClassify_not_wait (e : SSLErr)
    (h : ¬(e.kind = SSLErrKind.wantRead ∨ e.kind = SSLErrKind.wantWrite)) :
    (writeClassify e).1 ≠ NetworkStatus.waitForEvent := by
  rw [writeClassify]
  rcases e with ⟨k, q, en, rt⟩
  cases k with
  | wantRead => exact absurd (Or.inl rfl) h
  | wantWrite => exact absurd (Or.inr rfl) h
  | syscall =>
      simp only
      split
      · simp
      · split
        · split <;> simp
        · simp
  | zeroReturn => simp
  | other => simp

theorem conWriteLoop_account :
    ∀ (script : List SSLWriteRes) (cq : List (List Nat)) (wm : Int) (o : WriteOut),
      noEmptyChunks cq → conWriteLoop cq wm script = some o →
      o.writeMax = wm - (o.consumed : Int) ∧ o.cq = cqSkip cq o.consumed
  | [], cq, wm, o, hne, h => by
      simp only [conWriteLoop] at h
      split at h
      · cases h; exact ⟨by simp, (cqSkip_zero cq hne).symm⟩
      · cases h
  | .accepted m :: rest, cq, wm, o, hne, h => by
      simp only [conWriteLoop] at h
      split at h
      · cases h; exact ⟨by simp, (cqSkip_zero cq hne).symm⟩
      · split at h
        · split at h
          · cases h
          · rename_i o2 hrec
            cases h
            have ih := conWriteLoop_account rest _ _ o2
              (noEmptyChunks_cqSkip cq _ hne) hrec
            refine ⟨?_, ?_⟩
            · simp only [ih.1]
              push_cast
              ring
            · simp only [ih.2, cqSkip_cqSkip]
        · cases h
          exact ⟨rfl, rfl⟩
  | .failed e :: rest, cq, wm, o, hne, h => by
      simp only [conWriteLoop] at h
      split at h
      · cases h; exact ⟨by simp, (cqSkip_zero cq hne).symm⟩
      · split at h <;>
          · cases h; exact ⟨by simp, (cqSkip_zero cq hne).symm⟩

theorem conWriteLoop_head_attempt :
    ∀ (script : List SSLWriteRes) (cq : List (List Nat)) (wm : Int) (o : WriteOut),
      cqLength cq ≠ 0 → conWriteLoop cq wm script = some o →
      o.attempts.head? = some (cqView cq)
  | [], cq, wm, o, hne, h => by
      simp only [conWriteLoop] at h
      rw [if_neg hne] at h
      cases h
  | .accepted m :: rest, cq, wm, o, hne, h => by
      simp only [conWriteLoop] at h
      rw [if_neg hne] at h
      split at h
      · split at h
        · cases h
        · cases h; rfl
      · cases h; rfl
  | .failed e :: rest, cq, wm, o, hne, h => by
      simp only [conWriteLoop] at h
      rw [if_neg hne] at h
      split at h <;> · cases h; rfl

theorem conWriteLoop_pause :
    ∀ (script : List SSLWriteRes) (cq : List (List Nat)) (wm : Int) (o : WriteOut),
      conWriteLoop cq wm script = some o → o.status = NetworkStatus.waitForEvent →
      cqLength o.cq ≠ 0 ∧ o.attempts.getLast? = some (cqView o.cq)
  | [], cq, wm, o, h, hs => by
      simp only [conWriteLoop] at h
      split at h
      · cases h; cases hs
      · cases h
  | .accepted m :: rest, cq, wm, o, h, hs => by
      simp only [conWriteLoop] at h
      split at h
      · cases h; cases hs
      · split at h
        · split at h
          · cases h
          · rename_i o2 hrec
            cases h
            have ih := conWriteLoop_pause rest _ _ o2 hrec hs
            refine ⟨ih.1, ?_⟩
            rw [getLast?_cons_of_ne_nil _ o2.attempts ?hn]
            · exact ih.2
            · intro hznil
              rw [hznil] at ih
              cases ih.2
        · cases h; cases hs
  | .failed e :: rest, cq, wm, o, h, hs => by
      simp only [conWriteLoop] at h
      split at h
      · cases h; cases hs
      · split at h
        · rename_i hnz hw
          cases h
          exact ⟨hnz, rfl⟩
        · rename_i hnz hw
          cases h
          exact absurd hs (writeClassify_not_wait e hw)

theorem conWriteLoop_single_attempt :
    ∀ (script : List SSLWriteRes) (cq : List (List Nat)) (wm : Int) (o : WriteOut),
      wm ≤ 0 → cqLength cq ≠ 0 → conWriteLoop cq wm script = some o →
      o.attempts.length = 1
  | [], cq, wm, o, hwm, hne, h => by
      simp only [conWriteLoop] at h
      rw [if_neg hne] at h
      cases h
  | .accepted m :: rest, cq, wm, o, hwm, hne, h => by
      simp only [conWriteLoop] at h
      rw [if_neg hne] at h
      split at h
      · rename_i hcont
        have : (0 : Int) ≤ (min (m + 1) (cqView cq).length : Int) := by positivity
        omega
      · cases h; rfl
  | .failed e :: rest, cq, wm, o, hwm, hne, h => by
      simp only [conWriteLoop] at h
      rw [if_neg hne] at h
      split at h <;> · cases h; rfl

theorem conWriteLoop_consumed_bound :
    ∀ (script : List SSLWriteRes) (cq : List (List Nat)) (wm : Int) (o : WriteOut),
      conWriteLoop cq wm script = some o →
      (o.consumed : Int) ≤ (blocksize : Int) ∨
        (o.consumed : Int) ≤ wm - 1 + (blocksize : Int)
  | [], cq, wm, o, h => by
      simp only [conWriteLoop] at h
      split at h
      · cases h; left; simp [blocksize]
      · cases h
  | .accepted m :: rest, cq, wm, o, h => by
      have hrb : min (m + 1) (cqView cq).length ≤ blocksize :=
        le_trans (min_le_right _ _) (cqView_length_le cq)
      simp only [conWriteLoop] at h
      split at h
      · cases h; left; simp [blocksize]
      · split at h
        · split at h
          · cases h
          · rename_i hcont o2 hrec
            cases h
            have ih := conWriteLoop_consumed_bound rest _ _ o2 hrec
            right
            simp only [WriteOut.consumed] at ih ⊢
            rcases ih with ih | ih <;> push_cast at ih ⊢ <;> omega
        · cases h
          left
          exact_mod_cast hrb
  | .failed e :: rest, cq, wm, o, h => by
      simp only [conWriteLoop] at h
      split at h
      · cases h; left; simp [blocksize]
      · split at h <;> · cases h; left; simp [blocksize]

theorem chunk_eq_take (bytes : List Nat) (b : GByteArr) (r : Nat)
    (hr : r ≤ bytes.length) (hb : r ≤ b.len) :
    (setSize ⟨b.len, bytes.take r ++ b.data.drop r⟩ r).data = bytes.take r := by
  simp only [setSize, Nat.sub_eq_zero_of_le hb, List.replicate_zero, List.append_nil]
  exact List.take_left' (by rw [List.length_take]; omega)

theorem conReadLoop_appended_eq_delivered (maxRead : Int) :
    ∀ (script : List SSLReadRes) (buf : Option GByteArr) (len : Int) (o : ReadLoopOut),
      conReadLoop maxRead buf len script = some o → o.appended = o.delivered
  | [], buf, len, o, h => by cases h
  | .data bytes :: rest, buf, len, o, h => by
      simp only [conReadLoop] at h
      split at h
      · cases h; rfl
      · rename_i hr0
        have hch := chunk_eq_take bytes (buf.getD freshBuf)
          (min bytes.length (buf.getD freshBuf).len)
          (min_le_left _ _) (min_le_right _ _)
        split at h
        · split at h
          · cases h
          · rename_i o2 hrec
            cases h
            have ih := conReadLoop_appended_eq_delivered maxRead rest none _ o2 hrec
            simp only [ReadLoopOut.appended, ReadLoopOut.delivered]
            rw [hch, ih]
        · cases h
          simp only [ReadLoopOut.appended, ReadLoopOut.delivered]
          rw [hch]
  | .failed e :: rest, buf, len, o, h => by
      simp only [conReadLoop] at h
      split at h <;> · cases h; rfl

theorem conReadLoop_attempts_pos (maxRead : Int) :
    ∀ (script : List SSLReadRes) (buf : Option GByteArr) (len : Int) (o : ReadLoopOut),
      conReadLoop maxRead buf len script = some o → 1 ≤ o.attempts
  | [], buf, len, o, h => by cases h
  | .data bytes :: rest, buf, len, o, h => by
      simp only [conReadLoop] at h
      split at h
      · cases h; exact le_refl 1
      · split at h
        · split at h
          · cases h
          · cases h; simp
        · cases h; exact le_refl 1
  | .failed e :: rest, buf, len, o, h => by
      simp only [conReadLoop] at h
      split at h <;> · cases h; exact le_refl 1

theorem conReadLoop_total_bound (maxRead : Int) :
    ∀ (script : List SSLReadRes) (buf : Option GByteArr) (len : Int) (o : ReadLoopOut),
      (∀ x, buf = some x → x.len = blocksize) →
      conReadLoop maxRead buf len script = some o →
      o.status = NetworkStatus.success →
      (cqLength o.appended : Int) ≤ (blocksize : Int) ∨
        (cqLength o.appended : Int) + len ≤ maxRead + (blocksize : Int) - 1
  | [], buf, len, o, hwf, h, hs => by cases h
  | .data bytes :: rest, buf, len, o, hwf, h, hs => by
      have hblen : (buf.getD freshBuf).len = blocksize := by
        cases hb : buf with
        | none => rfl
        | some x => exact hwf x hb
      have hrb : min bytes.length (buf.getD freshBuf).len ≤ blocksize := by
        rw [← hblen]; exact min_le_right _ _
      have hchlen :
          ((setSize ⟨(buf.getD freshBuf).len,
            bytes.take (min bytes.length (buf.getD freshBuf).len) ++
              (buf.getD freshBuf).data.drop
                (min bytes.length (buf.getD freshBuf).len)⟩
            (min bytes.length (buf.getD freshBuf).len)).data).length =
            min bytes.length (buf.getD freshBuf).len := by
        rw [chunk_eq_take _ _ _ (min_le_left _ _) (min_le_right _ _),
          List.length_take]
        omega
      simp only [conReadLoop] at h
      split at h
      · cases h; cases hs
      · split at h
        · rename_i hcont
          split at h
          · cases h
          · rename_i o2 hrec
            cases h
            have ih := conReadLoop_total_bound maxRead rest none _ o2
              (fun x hx => by cases hx) hrec hs
            simp only [ReadLoopOut.appended] at ih ⊢
            rw [cqLength, List.map_cons, List.sum_cons, hchlen, ← cqLength]
            rcases ih with ih | ih <;> push_cast at ih ⊢ <;> omega
        · cases h
          left
          simp only [ReadLoopOut.appended]
          rw [cqLength, List.map_cons, List.sum_cons, hchlen]
          simp only [List.map_nil, List.sum_nil, Nat.add_zero]
          exact_mod_cast hrb
  | .failed e :: rest, buf, len, o, hwf, h, hs => by
      simp only [conReadLoop] at h
      split at h <;>
        · cases h
          left
          simp [cqLength, blocksize]

theorem computeMaxRead_nonneg (lim : Option Limiter) : 0 ≤ (computeMaxRead lim).1 := by
  cases lim with
  | none => simp [computeMaxRead, blocksize]
  | some l =>
      rw [computeMaxRead]
      split
      · split
        · split
          · simp
          · simp only
            omega
        · simp [blocksize]
      · simp [blocksize]

theorem conWriteLoop_cons_accepted_cont (cq : List (List Nat)) (wm : Int) (m : Nat)
    (rest : List SSLWriteRes) (hne : cqLength cq ≠ 0)
    (hc : min (m + 1) (cqView cq).length = (cqView cq).length ∧
      0 < wm - ((min (m + 1) (cqView cq).length : Nat) : Int)) :
    conWriteLoop cq wm (SSLWriteRes.accepted m :: rest) =
      (conWriteLoop (cqSkip cq (min (m + 1) (cqView cq).length))
          (wm - ((min (m + 1) (cqView cq).length : Nat) : Int)) rest).map
        (fun o => ⟨o.status, o.cq, o.writeMax, o.log, cqView cq :: o.attempts,
          min (m + 1) (cqView cq).length + o.consumed⟩) := by
  simp only [conWriteLoop]
  rw [if_neg hne, if_pos hc]
  cases conWriteLoop (cqSkip cq (min (m + 1) (cqView cq).length))
      (wm - ((min (m + 1) (cqView cq).length : Nat) : Int)) rest <;> rfl

theorem conWriteLoop_cons_accepted_stop (cq : List (List Nat)) (wm : Int) (m : Nat)
    (rest : List SSLWriteRes) (hne : cqLength cq ≠ 0)
    (hc : ¬(min (m + 1) (cqView cq).length = (cqView cq).length ∧
      0 < wm - ((min (m + 1) (cqView cq).length : Nat) : Int))) :
    conWriteLoop cq wm (SSLWriteRes.accepted m :: rest) =
      some ⟨NetworkStatus.success, cqSkip cq (min (m + 1) (cqView cq).length),
        wm - ((min (m + 1) (cqView cq).length : Nat) : Int), [], [cqView cq],
        min (m + 1) (cqView cq).length⟩ := by
  simp only [conWriteLoop]
  rw [if_neg hne, if_neg hc]

theorem conWriteLoop_cons_want (cq : List (List Nat)) (wm : Int) (e : SSLErr)
    (rest : List SSLWriteRes) (hne : cqLength cq ≠ 0)
    (hw : e.kind = SSLErrKind.wantRead ∨ e.kind = SSLErrKind.wantWrite) :
    conWriteLoop cq wm (SSLWriteRes.failed e :: rest) =
      some ⟨NetworkStatus.waitForEvent, cq, wm, [], [cqView cq], 0⟩ := by
  simp only [conWriteLoop]
  rw [if_neg hne, if_pos hw]

theorem cqLength_one (c : List Nat) : cqLength [c] = c.length := by
  rw [cqLength, List.map_cons, List.map_nil, List.sum_cons, List.sum_nil, Nat.add_zero]

theorem write_scenario_first :
    openssl_con_write [List.replicate 20480 7] 1048576
        [SSLWriteRes.accepted 20000,
          SSLWriteRes.failed ⟨SSLErrKind.wantWrite, [], 0, -1⟩] =
      some ⟨NetworkStatus.waitForEvent, [List.replicate 4096 7],
        1048576 - ((16384 : Nat) : Int), [],
        [List.replicate 16384 7, List.replicate 4096 7], 16384⟩ := by
  have hlen : cqLength [List.replicate 20480 7] = 20480 := by
    rw [cqLength_one, List.length_replicate]
  have hlen2 : cqLength [List.replicate 4096 7] = 4096 := by
    rw [cqLength_one, List.length_replicate]
  have hv : cqView [List.replicate 20480 7] = List.replicate 16384 7 := by
    rw [cqView, List.headD_cons, List.take_replicate,
      show min blocksize 20480 = 16384 by norm_num [blocksize]]
  have hv2 : cqView [List.replicate 4096 7] = List.replicate 4096 7 := by
    rw [cqView, List.headD_cons, List.take_replicate,
      show min blocksize 4096 = 4096 by norm_num [blocksize]]
  have hmin : min (20000 + 1) (cqView [List.replicate 20480 7]).length = 16384 := by
    rw [hv, List.length_replicate]; norm_num
  have hskip : cqSkip [List.replicate 20480 7] 16384 = [List.replicate 4096 7] := by
    rw [cqSkip, if_pos (by rw [List.length_replicate]; norm_num), List.drop_replicate,
      show (20480 : Nat) - 16384 = 4096 by norm_num]
  rw [openssl_con_write,
    conWriteLoop_cons_accepted_cont _ _ _ _ (by rw [hlen]; norm_num)
      ⟨by rw [hmin, hv, List.length_replicate], by rw [hmin]; norm_num⟩,
    hmin, hskip,
    conWriteLoop_cons_want _ _ _ _ (by rw [hlen2]; norm_num) (Or.inr rfl),
    hv, hv2]
  rfl

theorem write_scenario_retry :
    openssl_con_write [List.replicate 4096 7] (1048576 - ((16384 : Nat) : Int))
        [SSLWriteRes.accepted 20000] =
      some ⟨NetworkStatus.success, [],
        1048576 - ((16384 : Nat) : Int) - ((4096 : Nat) : Int), [],
        [List.replicate 4096 7], 4096⟩ := by
  have hlen2 : cqLength [List.replicate 4096 7] = 4096 := by
    rw [cqLength_one, List.length_replicate]
  have hv2 : cqView [List.replicate 4096 7] = List.replicate 4096 7 := by
    rw [cqView, List.headD_cons, List.take_replicate,
      show min blocksize 4096 = 4096 by norm_num [blocksize]]
  have hmin : min (20000 + 1) (cqView [List.replicate 4096 7]).length = 4096 := by
    rw [hv2, List.length_replicate]; norm_num
  have hskip : cqSkip [List.replicate 4096 7] 4096 = [] := by
    rw [cqSkip, if_neg (by rw [List.length_replicate]; norm_num), List.length_replicate,
      show (4096 : Nat) - 4096 = 0 by norm_num, cqSkip]
  rw [openssl_con_write,
    conWriteLoop_cons_accepted_cont _ _ _ _ (by rw [hlen2]; norm_num)
      ⟨by rw [hmin, hv2, List.length_replicate], by rw [hmin]; norm_num⟩,
    hmin, hskip, hv2]
  rw [show conWriteLoop [] (1048576 - ((16384 : Nat) : Int) - ((4096 : Nat) : Int)) [] =
      some ⟨NetworkStatus.success, [], 1048576 - ((16384 : Nat) : Int) - ((4096 : Nat) : Int),
        [], [], 0⟩ from rfl]
  rfl

theorem conWriteLoop_empty (cq : List (List Nat)) (wm : Int) (script : List SSLWriteRes)
    (h : cqLength cq = 0) :
    conWriteLoop cq wm script = some ⟨NetworkStatus.success, cq, wm, [], [], 0⟩ := by
  cases script <;> (simp only [conWriteLoop]; rw [if_pos h])

/-! ### Claims -/

/-- C8: close is idempotent.  Calling openssl_con_close on an
already-closed context is a no-op: the second call performs no TLS
shutdown or release operation and leaves the context state unchanged;
after a first close the handle is nulled. -/
theorem c8_close_idempotent (c : openssl_connection_ctx) :
    openssl_con_close (openssl_con_close c).1 = ((openssl_con_close c).1, []) ∧
    (openssl_con_close c).1.ssl = none := by
  rcases c with ⟨s, rb⟩
  cases s <;> exact ⟨rfl, rfl⟩

/-- C3 counterexample: closing a context that holds an SSL handle and a
pending reuse_read_buffer leaves the buffer allocated in the context,
contradicting the claim that close releases the local read buffer. -/
theorem c3_counterexample :
    (openssl_con_close ⟨some 1, some ⟨blocksize, [5]⟩⟩).1.reuse_read_buffer =
      some ⟨blocksize, [5]⟩ ∧
    some (⟨blocksize, [5]⟩ : GByteArr) ≠ none :=
  ⟨rfl, by simp⟩

/-- C3 (amended): openssl_con_close releases and nulls the TLS session
handle (performing SSL_shutdown then SSL_free exactly when a handle was
present) but does not touch the context's reuse_read_buffer, which
keeps whatever buffer it held. -/
theorem c3_close_releases_ssl_but_not_buffer (c : openssl_connection_ctx) :
    (openssl_con_close c).1.ssl = none ∧
    (openssl_con_close c).1.reuse_read_buffer = c.reuse_read_buffer ∧
    (∀ hd, c.ssl = some hd →
      (openssl_con_close c).2 = [TLSOp.shutdown hd, TLSOp.sslFree hd]) ∧
    (c.ssl = none → (openssl_con_close c).2 = []) := by
  rcases c with ⟨s, rb⟩
  cases s with
  | none =>
      refine ⟨rfl, rfl, ?_, fun _ => rfl⟩
      intro hd hh
      cases hh
  | some hd0 =>
      refine ⟨rfl, rfl, ?_, ?_⟩
      · intro hd hh
        cases hh
        rfl
      · intro hh
        cases hh

/-- C3 witness: the amended theorem applied to a context holding
handle 2 and a pending 3-byte buffer. -/
theorem c3_witness :
    (⟨some 2, some ⟨3, [9, 9, 9]⟩⟩ : openssl_connection_ctx).ssl = some 2 ∧
    (openssl_con_close ⟨some 2, some ⟨3, [9, 9, 9]⟩⟩).1.ssl = none ∧
    (openssl_con_close ⟨some 2, some ⟨3, [9, 9, 9]⟩⟩).1.reuse_read_buffer =
      some ⟨3, [9, 9, 9]⟩ ∧
    (openssl_con_close ⟨some 2, some ⟨3, [9, 9, 9]⟩⟩).2 =
      [TLSOp.shutdown 2, TLSOp.sslFree 2] := by
  have h := c3_close_releases_ssl_but_not_buffer ⟨some 2, some ⟨3, [9, 9, 9]⟩⟩
  exact ⟨rfl, h.1, h.2.1, h.2.2.1 2 rfl⟩

/-- C4: a read attempt failing with the default (other) classification
whose queued diagnostics all have noise reason codes returns
CONNECTION_CLOSE with no entry forwarded to the sink — the verbosity
flag of the claim is only a TODO comment in the source, so noise
entries are never forwarded; a non-noise entry is always forwarded and
makes the outcome FATAL_ERROR. -/
theorem c4_noise_entries_never_forwarded :
    (openssl_con_read [] none none
        [SSLReadRes.failed ⟨SSLErrKind.other, [SSL_R_SSL_HANDSHAKE_FAILURE], 0, -1⟩]).map
      (fun o => (o.status, o.log)) = some (NetworkStatus.connectionClose, []) ∧
    (openssl_con_read [] none none
        [SSLReadRes.failed ⟨SSLErrKind.other, [7], 0, -1⟩]).map
      (fun o => (o.status, o.log)) =
      some (NetworkStatus.fatalError, [LogEntry.sslReadError 7]) :=
  ⟨rfl, rfl⟩

/-- C7 counterexample: a write call entered with write_max = 0 and a
nonempty outbound queue still performs one SSL_write attempt (the
do-while body runs before the budget is checked), contradicting the
claim that no underlying TLS write attempt is performed. -/
theorem c7_counterexample :
    (openssl_con_write [[1]] 0 [SSLWriteRes.accepted 0]).map
      (fun o => o.attempts.length) = some 1 ∧
    (1 : Nat) ≠ 0 ∧ (0 : Int) ≤ 0 :=
  ⟨rfl, by decide, by decide⟩

/-- C7 (amended): a write call entered with an empty outbound queue
returns SUCCESS immediately with no SSL_write attempt and no queue or
budget change; but since the budget is checked only at the end of the
do-while body, a call entered with write_max ≤ 0 and a nonempty queue
performs exactly one SSL_write attempt. -/
theorem c7_empty_queue_immediate_success (cq : List (List Nat)) (wm : Int)
    (script : List SSLWriteRes) :
    (cqLength cq = 0 →
      openssl_con_write cq wm script =
        some ⟨NetworkStatus.success, cq, wm, [], [], 0⟩) ∧
    (∀ o, wm ≤ 0 → cqLength cq ≠ 0 → openssl_con_write cq wm script = some o →
      o.attempts.length = 1) := by
  constructor
  · intro hz
    exact conWriteLoop_empty cq wm script hz
  · intro o hwm hne h
    exact conWriteLoop_single_attempt script cq wm o hwm hne h

/-- C7 witness: the empty-queue part applied to an empty queue with
budget 5, and the one-attempt part applied to queue [[1]] with budget
0. -/
theorem c7_witness :
    cqLength ([] : List (List Nat)) = 0 ∧
    openssl_con_write [] 5 [] = some ⟨NetworkStatus.success, [], 5, [], [], 0⟩ ∧
    (0 : Int) ≤ 0 ∧ cqLength [[1]] ≠ 0 ∧
    (⟨NetworkStatus.success, [], -1, [], [[1]], 1⟩ : WriteOut).attempts.length = 1 := by
  refine ⟨rfl, (c7_empty_queue_immediate_success [] 5 []).1 rfl, by decide, by decide, ?_⟩
  exact (c7_empty_queue_immediate_success [[1]] 0 [SSLWriteRes.accepted 0]).2
    ⟨NetworkStatus.success, [], -1, [], [[1]], 1⟩ (by decide) (by decide) rfl

/-- C10: for a write call entered with write_max ≥ 1 and a nonempty
outbound queue, the total number of bytes consumed from the queue is
strictly less than write_max + 16384: the budget can be overshot, but
by less than one 16 KiB block. -/
theorem c10_write_budget_overshoot_bound (cq : List (List Nat)) (wm : Int)
    (script : List SSLWriteRes) (o : WriteOut)
    (hwm : 1 ≤ wm) (_hne : cqLength cq ≠ 0)
    (h : openssl_con_write cq wm script = some o) :
    (o.consumed : Int) < wm + (blocksize : Int) := by
  have hb := conWriteLoop_consumed_bound script cq wm o h
  rcases hb with hb | hb <;> omega

/-- C10 witness: the bound applied to a queue holding one two-byte
chunk with budget 1, where the call consumes 1 byte. -/
theorem c10_witness :
    (1 : Int) ≤ 1 ∧ cqLength [[1, 2]] ≠ 0 ∧
    (((⟨NetworkStatus.success, [[2]], 0, [], [[1, 2]], 1⟩ : WriteOut).consumed : Int) <
      1 + (blocksize : Int)) := by
  refine ⟨le_refl 1, by decide, ?_⟩
  exact c10_write_budget_overshoot_bound [[1, 2]] 1 [SSLWriteRes.accepted 0]
    ⟨NetworkStatus.success, [[2]], 0, [], [[1, 2]], 1⟩ (le_refl 1) (by decide) rfl

/-- C5: when a write call returns WAIT_FOR_EVENT (want-read or
want-write from SSL_write), nothing was consumed by the paused attempt:
the final queue is nonempty, the view passed on the paused attempt (the
last attempted view) is exactly the front-of-queue view of the final
queue, and any retry call on the unmodified queue passes that identical
view (same bytes, same length) to its first SSL_write. -/
theorem c5_pause_preserves_view (cq : List (List Nat)) (wm : Int)
    (script : List SSLWriteRes) (o : WriteOut)
    (h : openssl_con_write cq wm script = some o)
    (hs : o.status = NetworkStatus.waitForEvent) :
    cqLength o.cq ≠ 0 ∧
    o.attempts.getLast? = some (cqView o.cq) ∧
    ∀ (wm2 : Int) (script2 : List SSLWriteRes) (o2 : WriteOut),
      openssl_con_write o.cq wm2 script2 = some o2 →
      o2.attempts.head? = some (cqView o.cq) := by
  have hp := conWriteLoop_pause script cq wm o h hs
  exact ⟨hp.1, hp.2, fun wm2 script2 o2 h2 =>
    conWriteLoop_head_attempt script2 o.cq wm2 o2 hp.1 h2⟩

/-- C5 witness: a paused call on queue [[1,2]] followed by a retry that
consumes the identical view. -/
theorem c5_witness :
    ([[1, 2]] : List (List Nat)).getLast? = some (cqView [[1, 2]]) ∧
    ([[1, 2]] : List (List Nat)).head? = some (cqView [[1, 2]]) ∧
    cqLength [[1, 2]] ≠ 0 := by
  have h := c5_pause_preserves_view [[1, 2]] 5
    [SSLWriteRes.failed ⟨SSLErrKind.wantWrite, [], 0, -1⟩]
    ⟨NetworkStatus.waitForEvent, [[1, 2]], 5, [], [[1, 2]], 0⟩ rfl rfl
  exact ⟨h.2.1, h.2.2 7 [SSLWriteRes.accepted 99]
    ⟨NetworkStatus.success, [], 7 - ((2 : Nat) : Int), [], [[1, 2]], 2⟩ (by rfl), h.1⟩

/-- C1 counterexample: with a limiter allowing 1 byte
(limit 1, current 0), max_read is 1, yet a single SSL_read delivering 2
bytes appends 2 bytes to the inbound queue on a successful call — the
total appended exceeds max_read. -/
theorem c1_counterexample :
    (openssl_con_read [] (some ⟨1, 0⟩) none [SSLReadRes.data [7, 7]]).map
      (fun o => (o.status, cqLength o.appended)) =
      some (NetworkStatus.success, 2) ∧
    (computeMaxRead (some ⟨1, 0⟩)).1 = 1 ∧
    ¬((2 : Int) ≤ 1) :=
  ⟨rfl, rfl, by norm_num⟩

/-- C1 (amended): for a read call (entered with a blocksize-sized or
absent reuse buffer) that returns SUCCESS, the chunks appended to the
inbound queue are exactly, and in order, the plaintext byte runs the
TLS layer produced during the call (so their concatenations agree),
they are appended at the tail of the queue, and the total number of
bytes appended is at most max_read + 16384: it can exceed the max_read
computed from the limiter at entry, but by less than one 16 KiB block,
because the quota is only checked between block reads. -/
theorem c1_read_success_appends_exact_bytes (cq : List (List Nat))
    (lim : Option Limiter) (reuse : Option GByteArr) (script : List SSLReadRes)
    (o : ReadOut)
    (hwf : ∀ x, reuse = some x → x.len = blocksize)
    (h : openssl_con_read cq lim reuse script = some o)
    (hs : o.status = NetworkStatus.success) :
    o.appended = o.delivered ∧
    o.appended.flatten = o.delivered.flatten ∧
    o.cq = cq ++ o.appended ∧
    ((cqLength o.appended : Nat) : Int) ≤ (computeMaxRead lim).1 + (blocksize : Int) := by
  simp only [openssl_con_read] at h
  split at h
  · cases h
  · rename_i o2 hrec
    cases h
    dsimp only at hs ⊢
    have had := conReadLoop_appended_eq_delivered (computeMaxRead lim).1 script reuse 0 o2 hrec
    have hbd := conReadLoop_total_bound (computeMaxRead lim).1 script reuse 0 o2 hwf hrec hs
    have hnn := computeMaxRead_nonneg lim
    refine ⟨had, by rw [had], rfl, ?_⟩
    rcases hbd with hb | hb <;> omega

/-- C1 witness: the amended theorem applied to an unlimited call whose
single SSL_read delivers the byte 3. -/
theorem c1_witness :
    (∀ x, (none : Option GByteArr) = some x → x.len = blocksize) ∧
    ([[3]] : List (List Nat)) = [[3]] ∧
    ([[3]] : List (List Nat)).flatten = ([[3]] : List (List Nat)).flatten ∧
    ([[3]] : List (List Nat)) = [] ++ [[3]] ∧
    ((cqLength [[3]] : Nat) : Int) ≤ (computeMaxRead none).1 + (blocksize : Int) := by
  have hwf : ∀ x, (none : Option GByteArr) = some x → x.len = blocksize := by
    intro x hx
    cases hx
  have h := c1_read_success_appends_exact_bytes [] none none [SSLReadRes.data [3]]
    ⟨NetworkStatus.success, [[3]], none, [], [[3]], [[3]], 1⟩ hwf (by rfl) rfl
  exact ⟨hwf, h.1, h.2.1, h.2.2.1, h.2.2.2⟩

/-- C2 counterexample: a syscall-classified failure with a queued
library error (code 5) and errno EPIPE yields CONNECTION_CLOSE in the
read adapter but FATAL_ERROR in the write adapter, refuting the claim
that a queued internal error gives TransportError in both and that the
broken-pipe check applies under the same conditions. -/
theorem c2_counterexample :
    (openssl_con_read [] none none
        [SSLReadRes.failed ⟨SSLErrKind.syscall, [5], EPIPE, -1⟩]).map
      (fun o => (o.status, o.log)) =
      some (NetworkStatus.connectionClose, [LogEntry.sslReadError 5]) ∧
    (openssl_con_write [[1]] 1
        [SSLWriteRes.failed ⟨SSLErrKind.syscall, [5], EPIPE, -1⟩]).map
      (fun o => (o.status, o.log)) =
      some (NetworkStatus.fatalError, [LogEntry.sslWriteError 5]) ∧
    NetworkStatus.connectionClose ≠ NetworkStatus.fatalError :=
  ⟨rfl, rfl, by decide⟩

/-- C2 (amended): on a syscall-classified failure the write adapter
returns FATAL_ERROR whenever an internal error was queued, draining the
whole queue to the sink and never consulting errno; the read adapter
always drains and forwards the queue and then applies the
EPIPE/ECONNRESET check, returning CONNECTION_CLOSE for those errno
values and FATAL_ERROR (with an extra errno record) otherwise — so the
TransportClosed check applies under different conditions in the two
adapters. -/
theorem c2_syscall_classification (e : SSLErr)
    (hk : e.kind = SSLErrKind.syscall) :
    (e.queue ≠ [] →
      writeClassify e =
        (NetworkStatus.fatalError, e.queue.map LogEntry.sslWriteError)) ∧
    readClassify e =
      (if e.errno = EPIPE ∨ e.errno = ECONNRESET then NetworkStatus.connectionClose
        else NetworkStatus.fatalError,
       e.queue.map LogEntry.sslReadError ++
         (if e.errno = EPIPE ∨ e.errno = ECONNRESET then []
          else [LogEntry.readErrno e.errno])) := by
  rcases e with ⟨k, q, en, rt⟩
  dsimp only at hk
  subst hk
  constructor
  · intro hq
    dsimp only [writeClassify]
    rw [if_pos hq]
  · dsimp only [readClassify]
    by_cases hp : en = EPIPE ∨ en = ECONNRESET
    · simp only [if_pos hp, List.append_nil]
    · simp only [if_neg hp]

/-- C2 witness: the amended theorem applied to a syscall failure with
queued code 5 and errno EPIPE. -/
theorem c2_witness :
    (⟨SSLErrKind.syscall, [5], EPIPE, -1⟩ : SSLErr).kind = SSLErrKind.syscall ∧
    ([5] : List Nat) ≠ [] ∧
    writeClassify ⟨SSLErrKind.syscall, [5], EPIPE, -1⟩ =
      (NetworkStatus.fatalError, [LogEntry.sslWriteError 5]) ∧
    readClassify ⟨SSLErrKind.syscall, [5], EPIPE, -1⟩ =
      (NetworkStatus.connectionClose, [LogEntry.sslReadError 5]) := by
  have h := c2_syscall_classification ⟨SSLErrKind.syscall, [5], EPIPE, -1⟩ rfl
  refine ⟨rfl, by decide, h.1 (by decide), ?_⟩
  rw [h.2]
  rfl

/-- C9: a read call made while the limiter reports zero remaining
allowance (current = limit > 0) still performs at least one SSL_read
attempt and emits the fd-should-be-disabled diagnostic to the sink. -/
theorem c9_quota_floor (cq : List (List Nat)) (L : Int) (reuse : Option GByteArr)
    (script : List SSLReadRes) (o : ReadOut) (hL : 0 < L)
    (h : openssl_con_read cq (some ⟨L, L⟩) reuse script = some o) :
    1 ≤ o.attempts ∧ LogEntry.fdShouldBeDisabled ∈ o.log := by
  have hmr2 : (computeMaxRead (some ⟨L, L⟩)).2 = true := by
    rw [computeMaxRead]
    dsimp only
    rw [if_pos hL, if_pos (by norm_num [blocksize]), if_pos (by norm_num)]
  simp only [openssl_con_read] at h
  split at h
  · cases h
  · rename_i o2 hrec
    cases h
    dsimp only
    constructor
    · exact conReadLoop_attempts_pos _ _ _ _ o2 hrec
    · simp [hmr2]

/-- C9 witness: the theorem applied to a full limiter (limit = current
= 3) with one SSL_read delivering the byte 9. -/
theorem c9_witness :
    (0 : Int) < 3 ∧ (1 : Nat) ≤ 1 ∧
    LogEntry.fdShouldBeDisabled ∈ [LogEntry.fdShouldBeDisabled] := by
  have h := c9_quota_floor [] 3 none [SSLReadRes.data [9]]
    ⟨NetworkStatus.success, [[9]], none, [LogEntry.fdShouldBeDisabled], [[9]], [[9]], 1⟩
    (by norm_num) (by rfl)
  exact ⟨by norm_num, h.1, h.2⟩

/-- C6: on an SSL_write attempt accepting r > 0 bytes the adapter
consumes exactly r bytes from the front of the queue and subtracts r
from write_max (so over the call, the final budget is the entry budget
minus the total consumed and the final queue is the entry queue with
the consumed bytes skipped from the front); it performs a second
attempt in the same call exactly when r equalled the view length, the
budget stays positive, and the queue stays nonempty, and otherwise
returns SUCCESS; and the 20 KiB scenario of the claim holds. -/
theorem c6_write_consume_and_continue (cq : List (List Nat)) (wm : Int) (m : Nat)
    (rest : List SSLWriteRes) (o : WriteOut)
    (hne : noEmptyChunks cq) (hq : cqLength cq ≠ 0)
    (h : openssl_con_write cq wm (SSLWriteRes.accepted m :: rest) = some o) :
    c6Conclusion cq wm m o := by
  replace h : conWriteLoop cq wm (SSLWriteRes.accepted m :: rest) = some o := h
  have hacc := conWriteLoop_account _ cq wm o hne h
  have hmain : (2 ≤ o.attempts.length ↔
      (min (m + 1) (cqView cq).length = (cqView cq).length ∧
        0 < wm - ((min (m + 1) (cqView cq).length : Nat) : Int) ∧
        cqLength (cqSkip cq (min (m + 1) (cqView cq).length)) ≠ 0)) ∧
      (¬(min (m + 1) (cqView cq).length = (cqView cq).length ∧
        0 < wm - ((min (m + 1) (cqView cq).length : Nat) : Int)) →
      o.status = NetworkStatus.success ∧
        o.consumed = min (m + 1) (cqView cq).length) ∧
      (cqLength (cqSkip cq (min (m + 1) (cqView cq).length)) = 0 →
        o.status = NetworkStatus.success) := by
    simp only [conWriteLoop] at h
    rw [if_neg hq] at h
    split at h
    · rename_i hc
      split at h
      · cases h
      · rename_i o2 hrec
        cases h
        dsimp only
        refine ⟨?_, ?_, ?_⟩
        · constructor
          · intro h2
            refine ⟨hc.1, hc.2, ?_⟩
            intro hz
            rw [conWriteLoop_empty _ _ _ hz] at hrec
            cases hrec
            simp at h2
          · rintro ⟨-, -, h3⟩
            have hh := conWriteLoop_head_attempt rest _ _ o2 h3 hrec
            cases ha : o2.attempts with
            | nil => rw [ha] at hh; simp at hh
            | cons x xs => simp only [List.length_cons]; omega
        · intro hcn
          exact absurd hc hcn
        · intro hz
          rw [conWriteLoop_empty _ _ _ hz] at hrec
          cases hrec
          rfl
    · rename_i hc
      cases h
      dsimp only
      refine ⟨?_, ?_, ?_⟩
      · constructor
        · intro h2
          simp at h2
        · rintro ⟨h1, h2, -⟩
          exact absurd ⟨h1, h2⟩ hc
      · intro _
        exact ⟨rfl, rfl⟩
      · intro _
        rfl
  exact ⟨hacc, hmain.1, hmain.2.1, hmain.2.2, write_scenario_first,
    write_scenario_retry⟩

/-- C6 witness: the theorem applied to queue [[1,2]] with budget 1,
where the attempt accepts one byte (a short write) and the call stops
with SUCCESS. -/
theorem c6_witness :
    noEmptyChunks [[1, 2]] ∧ cqLength [[1, 2]] ≠ 0 ∧
    c6Conclusion [[1, 2]] 1 0 c6WitnessOut := by
  refine ⟨by decide, by decide, ?_⟩
  exact c6_write_consume_and_continue [[1, 2]] 1 0 [] c6WitnessOut
    (by decide) (by decide) (by rfl)
